import Mathlib

/-!
vmstorage-sidecar: backup-cycle orchestrator and retention sweeper.

A shallow embedding of `src/main.go` (package `main`): `init`, `clean`, `main`,
`beginBackup`, `newSrcFS`, `newDstFS`, `newOriginFS`.

Conventions of the embedding

* A Go `string` is a Lean `String`; parsers work on its character list.
* `time.Duration` is an `Int` count of nanoseconds (an `int64` in Go; the places where
  the source multiplies durations wrap explicitly with `wrapInt64`).
* A wall-clock instant (`time.Time` without its location) is an `Int` count of
  nanoseconds since the Unix epoch.
* Calls that leave the process (S3, the snapshot HTTP API, the file system, the backup
  engine) are answered by a *world* record; the functions return the list of calls they
  made together with the way they ended.
-/

namespace VmstorageSidecar

/-! ## Durations (`time` package constants) -/

/-- Go `time.Second`, in nanoseconds. -/
def second : Int := 1000000000

/-- Go `time.Minute`, in nanoseconds. -/
def minute : Int := 60 * second

/-- Go `time.Hour`, in nanoseconds. -/
def hour : Int := 60 * minute

/-- Two's-complement wrap of an integer into the `int64` range. -/
def wrapInt64 (x : Int) : Int := (x + 2 ^ 63) % 2 ^ 64 - 2 ^ 63

/-- Whether an integer is an `int64` value. -/
def isInt64 (x : Int) : Prop := -(2 ^ 63) ≤ x ∧ x < 2 ^ 63

instance (x : Int) : Decidable (isInt64 x) := by unfold isInt64; infer_instance

/-! ## `strconv.Atoi` and `time.ParseDuration` (standard library, used by `init`) -/

/-- Value of an ASCII decimal digit. -/
def digitVal (c : Char) : Nat := c.toNat - '0'.toNat

/-- Whether the byte is one of `'0'..'9'`. -/
def isDigit (c : Char) : Bool := decide ('0'.toNat ≤ c.toNat) && decide (c.toNat ≤ '9'.toNat)

/-- Go `strconv.Atoi` on a 64-bit platform: an optional sign followed by one or more
decimal digits, the value being an `int64`; anything else is an error. -/
def atoi (s : List Char) : Except String Int :=
  let neg := (s.head? == some '-')
  let body := match s with
    | '-' :: r => r
    | '+' :: r => r
    | _ => s
  if body.isEmpty then .error "invalid syntax"
  else if body.all isDigit then
    let n : Int := (body.foldl (fun a c => a * 10 + digitVal c) 0 : Nat)
    let v := if neg then -n else n
    if -(2 ^ 63) ≤ v ∧ v < 2 ^ 63 then .ok v else .error "value out of range"
  else .error "invalid syntax"

/-- Go `time.leadingInt`: consume `[0-9]*`, failing once the value exceeds `1<<63`.
Returns the value and the unread rest. -/
def leadingInt : List Char → Nat → Option (Nat × List Char)
  | [], x => some (x, [])
  | c :: rest, x =>
    if isDigit c then
      if x > 2 ^ 63 / 10 then none
      else
        let y := x * 10 + digitVal c
        if y > 2 ^ 63 then none else leadingInt rest y
    else some (x, c :: rest)

/-- Go `time.leadingFraction`: consume `[0-9]*` after the decimal point; digits that
would overflow are read and dropped. Returns the digits read as a number, the power of
ten they are scaled by, and the unread rest. -/
def leadingFraction : List Char → Nat → Nat → Bool → Nat × Nat × List Char
  | [], x, scale, _ => (x, scale, [])
  | c :: rest, x, scale, overflow =>
    if isDigit c then
      if overflow then leadingFraction rest x scale true
      else if x > (2 ^ 63 - 1) / 10 then leadingFraction rest x scale true
      else
        let y := x * 10 + digitVal c
        if y > 2 ^ 63 then leadingFraction rest x scale true
        else leadingFraction rest y (scale * 10) false
    else (x, scale, c :: rest)

/-- Go `time.unitMap`: the units `time.ParseDuration` knows, in nanoseconds. There is no
unit for days. -/
def unitMap (u : List Char) : Option Nat :=
  if u = "ns".toList then some 1
  else if u = "us".toList then some 1000
  else if u = "µs".toList then some 1000
  else if u = "μs".toList then some 1000
  else if u = "ms".toList then some 1000000
  else if u = "s".toList then some 1000000000
  else if u = "m".toList then some 60000000000
  else if u = "h".toList then some 3600000000000
  else none

/-- The unit of one duration term: the longest prefix without `.` or a digit. -/
def spanUnit : List Char → List Char × List Char
  | [] => ([], [])
  | c :: rest =>
    if c = '.' || isDigit c then ([], c :: rest)
    else ((spanUnit rest).1.cons c, (spanUnit rest).2)

/-- The term loop of Go `time.ParseDuration` (`for s != ""`), with the sum `d` so far.
`fuel` bounds the number of terms; each term consumes at least one character, so the
length of the input is enough. The fractional part of a term, which Go evaluates as
`uint64(float64(f) * (float64(unit) / scale))`, is evaluated here in exact arithmetic;
the theorems below only run inputs without a decimal point. The error texts are
shortened: Go quotes the unit and the input in them. -/
def parseTerms : Nat → List Char → Nat → Except String Nat
  | 0, [], d => .ok d
  | 0, _ :: _, _ => .error "time: invalid duration"
  | _ + 1, [], d => .ok d
  | fuel + 1, c :: rest, d =>
    if !(c = '.' || isDigit c) then .error "time: invalid duration"
    else
      match leadingInt (c :: rest) 0 with
      | none => .error "time: invalid duration"
      | some (v, s1) =>
        let pre := decide ((c :: rest).length ≠ s1.length)
        let fr : Nat × Nat × List Char × Bool :=
          match s1 with
          | '.' :: s2 =>
            let r := leadingFraction s2 0 1 false
            (r.1, r.2.1, r.2.2, decide (s2.length ≠ r.2.2.length))
          | _ => (0, 1, s1, false)
        if !pre && !fr.2.2.2 then .error "time: invalid duration"
        else
          let u := spanUnit fr.2.2.1
          if u.1.isEmpty then .error "time: missing unit in duration"
          else
            match unitMap u.1 with
            | none => .error ("time: unknown unit " ++ String.mk u.1 ++ " in duration")
            | some unit =>
              if v > 2 ^ 63 / unit then .error "time: invalid duration"
              else
                let v1 := v * unit
                let v2 := if fr.1 > 0 then v1 + fr.1 * unit / fr.2.1 else v1
                if fr.1 > 0 ∧ v2 > 2 ^ 63 then .error "time: invalid duration"
                else
                  let d1 := (d + v2) % 2 ^ 64
                  if d1 > 2 ^ 63 then .error "time: invalid duration"
                  else parseTerms fuel u.2 d1

/-- Go `time.ParseDuration`: `[-+]?([0-9]*(\.[0-9]*)?[a-z]+)+`, the result in
nanoseconds. -/
def parseDuration (s : String) : Except String Int :=
  let neg := (s.toList.head? == some '-')
  let body := match s.toList with
    | '-' :: r => r
    | '+' :: r => r
    | l => l
  if body = ['0'] then .ok 0
  else if body.isEmpty then .error "time: invalid duration"
  else
    match parseTerms body.length body 0 with
    | .error e => .error e
    | .ok d =>
      if neg then .ok (wrapInt64 (-(d : Int)))
      else if d > 2 ^ 63 - 1 then .error "time: invalid duration"
      else .ok (d : Int)

/-- Go `int64(d.Minutes())`. `Duration.Minutes` returns
`float64(d / Minute) + float64(d % Minute) / 6e10` and the conversion truncates toward
zero, which gives the truncated quotient `d / Minute`. The floating-point sum is exact
when `d` is a whole number of minutes, and cannot round up to the next integer while
`|d| < 2 ^ 18` minutes (about 182 days); the theorems on this function stay inside those
two cases. -/
def durationMinutes (d : Int) : Int := Int.tdiv d minute

/-! ## `init` -/

/-- The package variables `init` sets: `reteion` (minutes an object is kept) and
`tickMin` (minutes between cycles). -/
structure Settings where
  reteion : Int
  tickMin : Int
  deriving DecidableEq, Repr

/-- Go `init`, lines 52-73: `getenv` is `os.Getenv` (the empty string for an unset
variable); `.error` is the `panic(err)` of a failed parse. -/
def init (getenv : String → String) : Except String Settings :=
  let reteionstr := if getenv "RETION" = "" then "30d" else getenv "RETION"
  match parseDuration reteionstr with
  | .error e => .error e
  | .ok reteiont =>
    let reteion := durationMinutes reteiont
    let tickMinStr := if getenv "TICK_MIN" = "" then "60" else getenv "TICK_MIN"
    match atoi tickMinStr.toList with
    | .error e => .error e
    | .ok tickMin => .ok { reteion := reteion, tickMin := tickMin }

/-! ## `clean`: the retention sweep -/

/-- One entry of `resp.Contents`: the object key and its `LastModified` instant. -/
structure S3Object where
  key : String
  lastModified : Int
  deriving DecidableEq, Repr

/-- One bucket as the sweep meets it: its name, the answer of `svc.ListObjects` for it
(`.error` is the returned `err`), and the reading of `time.Now()` taken on line 103
once the listing has returned. -/
structure BucketVisit where
  name : String
  listObjects : Except String (List S3Object)
  clock : Int

/-- The S3 service as one sweep sees it. `ListBuckets` returns its output value and its
error side by side, as the Go call does (on a failed request the SDK hands back the
empty output it allocated); `deleteObject bucket key` is the error of `DeleteObject`,
`none` for success; `newSession` is the error of `session.NewSession`. -/
structure S3World where
  newSession : Option String
  listBucketsOut : List BucketVisit
  listBucketsErr : Option String
  deleteObject : String → String → Option String

/-- The requests a sweep sends. -/
inductive S3Call where
  | listBuckets
  | listObjects (bucket : String)
  | deleteObject (bucket key : String)
  deriving DecidableEq, Repr

/-- How a sweep ends: it returns after logging `bucket.size:` with the number of
buckets, or it panics with an error. -/
inductive SweepEnd where
  | returned (bucketSize : Nat)
  | panicked (err : String)
  deriving DecidableEq, Repr

/-- Go `t.Add(d)` on wall-clock instants. -/
def timeAdd (t d : Int) : Int := t + d

/-- Go `t.Before(u)` on wall-clock instants. -/
def timeBefore (t u : Int) : Bool := decide (t < u)

/-- The cutoff of line 103, `time.Now().Add(-time.Minute * time.Duration(reteion))`,
where `clock` is the reading of `time.Now()`. The product is an `int64` product. -/
def cutoff (reteion clock : Int) : Int := timeAdd clock (wrapInt64 (-minute * reteion))

/-- The inner loop of `clean`, lines 104-118, over `resp.Contents` of one bucket. A
failed `DeleteObject` is logged and the loop goes on (`continue`). -/
def cleanObjects (w : S3World) (bucket : String) (now : Int) : List S3Object → List S3Call
  | [] => []
  | item :: rest =>
    if timeBefore item.lastModified now then
      match w.deleteObject bucket item.key with
      | some _ => S3Call.deleteObject bucket item.key :: cleanObjects w bucket now rest
      | none => S3Call.deleteObject bucket item.key :: cleanObjects w bucket now rest
    else cleanObjects w bucket now rest

/-- The outer loop of `clean`, lines 94-119, over `buckResp.Buckets`. A failed
`ListObjects` panics, which ends the loop; the second component is that error. -/
def cleanBuckets (w : S3World) (reteion : Int) : List BucketVisit → List S3Call × Option String
  | [] => ([], none)
  | bt :: rest =>
    match bt.listObjects with
    | .error e => ([S3Call.listObjects bt.name], some e)
    | .ok contents =>
      let now := cutoff reteion bt.clock
      let here := cleanObjects w bt.name now contents
      let later := cleanBuckets w reteion rest
      (S3Call.listObjects bt.name :: (here ++ later.1), later.2)

/-- Go `clean`, lines 75-121. `sess` tells whether the package variable `sess` is
already set. The error of `ListBuckets` is dropped (`buckResp, _ :=`): only the output
value is used. Returns the requests sent, in order, and how the sweep ended. -/
def clean (reteion : Int) (sess : Bool) (w : S3World) : List S3Call × SweepEnd :=
  match (if sess then none else w.newSession) with
  | some e => ([], SweepEnd.panicked e)
  | none =>
    let buckResp := w.listBucketsOut
    let r := cleanBuckets w reteion buckResp
    match r.2 with
    | some e => (S3Call.listBuckets :: r.1, SweepEnd.panicked e)
    | none => (S3Call.listBuckets :: r.1, SweepEnd.returned buckResp.length)

/-- The `DeleteObject` requests among the calls of a sweep, as (bucket, key) pairs. -/
def deleteAttempts : List S3Call → List (String × String)
  | [] => []
  | S3Call.deleteObject b k :: rest => (b, k) :: deleteAttempts rest
  | _ :: rest => deleteAttempts rest


/-! ## Worlds used to run the sweep on concrete inputs -/

/-- The scenario of the retention rule: one bucket, listed at day 2 12:00 (day 1 starts
at instant 0), holding object `A` modified day 1 11:00 and object `B` modified day 1
13:00. -/
def scenarioWorld : S3World :=
  { newSession := none
    listBucketsOut :=
      [{ name := "backups"
         listObjects := .ok [⟨"A", 11 * hour⟩, ⟨"B", 13 * hour⟩]
         clock := 36 * hour }]
    listBucketsErr := none
    deleteObject := fun _ _ => none }

/-- One bucket, listed at second 100, holding object `A` modified at second 25 (75
seconds old). -/
def subMinuteWorld : S3World :=
  { newSession := none
    listBucketsOut :=
      [{ name := "backups", listObjects := .ok [⟨"A", 25 * second⟩], clock := 100 * second }]
    listBucketsErr := none
    deleteObject := fun _ _ => none }

/-- Two buckets listed at day 2 12:00. The first holds `A` (day 1 01:00), `B` (day 1
02:00) and `C` (day 2 16:00), the second holds `D` (day 1 03:00). `DeleteObject` fails
for `A`, the first object the sweep meets, and succeeds for the others. -/
def worldDeleteFails : S3World :=
  { newSession := none
    listBucketsOut :=
      [{ name := "b1"
         listObjects := .ok [⟨"A", 1 * hour⟩, ⟨"B", 2 * hour⟩, ⟨"C", 40 * hour⟩]
         clock := 36 * hour },
       { name := "b2"
         listObjects := .ok [⟨"D", 3 * hour⟩]
         clock := 36 * hour }]
    listBucketsErr := none
    deleteObject := fun b k => if b = "b1" ∧ k = "A" then some "AccessDenied" else none }

/-- The environment with `RETION=90s` and nothing else set. -/
def envRetention90s (k : String) : String := if k = "RETION" then "90s" else ""

/-- The environment with nothing set. -/
def envEmpty (_ : String) : String := ""

/-- The environment with `RETION=720h` and `TICK_MIN` unset. -/
def envRetention720h (k : String) : String := if k = "RETION" then "720h" else ""

/-- A service whose `ListBuckets` request fails: the output value is empty and the error
is set. The one bucket the account owns is never reported. -/
def listBucketsFails : S3World :=
  { newSession := none
    listBucketsOut := []
    listBucketsErr := some "RequestError: send request failed"
    deleteObject := fun _ _ => none }

/-! ## `main`: start-up checks -/

/-- The command-line flags of lines 28-41 the core reads. -/
structure Flags where
  storageDataPath : String
  snapshotName : String
  snapshotCreateURL : String
  snapshotDeleteURL : String
  dst : String
  origin : String
  concurrency : Int
  deriving DecidableEq, Repr

/-- Go `strings.Replace(s, old, new, 1)` on character lists, for `old ≠ new`: the first
occurrence of `old`, scanning from the left, is replaced; a string without an occurrence
is returned unchanged. -/
def replaceFirst (old new : List Char) : List Char → List Char
  | [] => if old.isEmpty then new else []
  | c :: rest =>
    if old.isPrefixOf (c :: rest) then new ++ (c :: rest).drop old.length
    else c :: replaceFirst old new rest

/-- Go `strings.Replace(s, old, new, 1)`. -/
def stringsReplaceOnce (s old new : String) : String :=
  if old = new then s else String.mk (replaceFirst old.data new.data s.data)

/-- How `main` gets past its checks: stopped by `logger.Fatalf`, or at line 146 with the
flags as they then stand, where the first `beginBackup` is launched. -/
inductive Startup where
  | fatal (msg : String)
  | launched (flags : Flags)
  deriving DecidableEq, Repr

/-- Go `main`, lines 132-146. `flag.Set` on a defined string flag cannot fail, so the
`Fatalf` of line 140 has no branch here. -/
def main (f : Flags) : Startup :=
  if f.snapshotCreateURL.length > 0 then
    if f.snapshotName.length > 0 then
      Startup.fatal "-snapshotName shouldn't be set if -snapshot.createURL is set, since snapshots are created automatically in this case"
    else if f.snapshotDeleteURL.length ≤ 0 then
      Startup.launched
        { f with snapshotDeleteURL := stringsReplaceOnce f.snapshotCreateURL "/create" "/delete" }
    else Startup.launched f
  else Startup.launched f

/-- Whether start-up reached the launch of the first cycle. -/
def Startup.isLaunched : Startup → Bool
  | Startup.launched _ => true
  | Startup.fatal _ => false

/-- Flags with nothing set but the destination. -/
def flagsNothingSet : Flags :=
  { storageDataPath := "victoria-metrics-data", snapshotName := "", snapshotCreateURL := ""
    snapshotDeleteURL := "", dst := "s3://backups/vm", origin := "", concurrency := 10 }

/-- Flags for automatic snapshots, the delete URL left to be derived. -/
def flagsAuto (createURL : String) : Flags :=
  { flagsNothingSet with snapshotCreateURL := createURL }


/-! ## `time.Time.Format` with the layout `2006-01-02-15-04` (standard library) -/

/-- Decimal digits of a number, least significant first; `fuel` bounds their count. -/
def digitsRev : Nat → Nat → List Nat
  | 0, _ => []
  | fuel + 1, n => if n = 0 then [] else (n % 10) :: digitsRev fuel (n / 10)

/-- The ASCII digit of a value below ten. -/
def digitChar (d : Nat) : Char := Char.ofNat ('0'.toNat + d)

/-- Go `time.appendInt(b, x, width)`: a `-` for a negative `x`, then the decimal digits
of `|x|` padded with zeros on the left to `width` digits. -/
def appendInt (x : Int) (width : Nat) : List Char :=
  let u := x.natAbs
  let sign := if x < 0 then ['-'] else []
  let ds := if u = 0 then ['0'] else (digitsRev u u).reverse.map digitChar
  sign ++ (List.replicate (width - ds.length) '0' ++ ds)

/-- Go `time.isLeap`. -/
def isLeap (year : Int) : Bool :=
  decide (year % 4 = 0) && (decide (year % 100 ≠ 0) || decide (year % 400 = 0))

/-- Go `time.daysBefore`: days of a non-leap year before each month. -/
def daysBefore : List Nat := [0, 31, 59, 90, 120, 151, 181, 212, 243, 273, 304, 334, 365]

/-- The year part of Go `time.absDate`: the year and the zero-based day of the year of a
day count. Go counts days from 1 January of its absolute zero year, which is 1 modulo
400; the count here is from 1 January of year 1, so the 400-, 100-, 4- and 1-year cycles
are cut off in the same way. -/
def yearDay (days : Int) : Int × Int :=
  let n400 := days / 146097
  let d1 := days - 146097 * n400
  let n100a := d1 / 36524
  let n100 := n100a - n100a / 4
  let d2 := d1 - 36524 * n100
  let n4 := d2 / 1461
  let d3 := d2 - 1461 * n4
  let n1a := d3 / 365
  let n1 := n1a - n1a / 4
  let yday := d3 - 365 * n1
  (400 * n400 + 100 * n100 + 4 * n4 + n1 + 1, yday)

/-- The month part of Go `time.absDate`: month (1-12) and day of the month from the
zero-based day of the year. -/
def monthDay (leap : Bool) (yday : Nat) : Nat × Nat :=
  if leap && yday == 59 then (2, 29)
  else
    let day := if leap && decide (yday > 59) then yday - 1 else yday
    let month := day / 31
    let endDay := daysBefore.getD (month + 1) 0
    if day ≥ endDay then (month + 2, day - endDay + 1)
    else (month + 1, day - daysBefore.getD month 0 + 1)

/-- Seconds of the local wall clock at instant `now` (nanoseconds since the Unix epoch),
`offset` seconds east of UTC. -/
def localSeconds (now offset : Int) : Int := now / 1000000000 + offset

/-- Go `t.Format("2006-01-02-15-04")` for a time at instant `now` in a zone whose offset
at that instant is `offset` seconds east of UTC: year, month, day, hour and minute of
the local wall clock. -/
def formatDayhour (now offset : Int) : List Char :=
  let sec := localSeconds now offset
  let days := sec / 86400
  let rem := sec % 86400
  let yd := yearDay (days + 719162)
  let md := monthDay (isLeap yd.1) yd.2.toNat
  appendInt yd.1 4 ++ '-' :: appendInt md.1 2 ++ '-' :: appendInt md.2 2
    ++ '-' :: appendInt (rem / 3600) 2 ++ '-' :: appendInt (rem % 3600 / 60) 2

/-- The minute of the local wall clock an instant falls in, counted from the epoch. -/
def localMinute (now offset : Int) : Int := localSeconds now offset / 60


/-! ## `beginBackup`: one backup cycle -/

/-- The dynamic type behind a `common.RemoteFS` value, as `actions.NewRemoteFS` builds
one from the scheme of a location: `*s3remote.FS` (with its `CustomEndpoint`),
`*gcsremote.FS` or `*fsremote.FS`. -/
inductive RemoteFS where
  | s3 (customEndpoint bucket dir : String)
  | gcs (bucket dir : String)
  | fsremote (dir : String)
  deriving DecidableEq, Repr

/-- The origin view: the inert `fsnil.FS` or a remote file system. -/
inductive OriginFS where
  | fsnil
  | remote (fs : RemoteFS)
  deriving DecidableEq, Repr

/-- What one cycle meets outside the process. `snapshotCreate url` answers
`snapshot.Create`; `snapshotDelete url name` is the error of `snapshot.Delete`; `now`
is the reading of `time.Now()` on line 178 and `zone` the local time zone, giving the
offset east of UTC, in seconds, in force at a Unix second; `osOpen path` is the error of
`os.Open`; `stat path` answers `f.Stat()` with `fi.IsDir()`; `fslocalInit dir` is the
error of `fslocal.FS.Init`; `newRemoteFS location` answers `actions.NewRemoteFS`;
`backupRun` is the error of `actions.Backup.Run`. -/
structure CycleWorld where
  snapshotCreate : String → Except String String
  snapshotDelete : String → String → Option String
  now : Int
  zone : Int → Int
  osOpen : String → Option String
  stat : String → Except String Bool
  fslocalInit : String → Option String
  newRemoteFS : String → Except String RemoteFS
  backupRun : Option String

/-- The errors `newSrcFS` returns, lines 221-246. -/
inductive SrcError where
  | snapshotNameMissing
  | cannotOpen (snapshotPath err : String)
  | cannotStat (snapshotPath err : String)
  | notDirectory (snapshotPath : String)
  | cannotInit (err : String)
  deriving DecidableEq, Repr

/-- The reasons for which a cycle calls `logger.Fatalf`. -/
inductive Fatal where
  | cannotCreateSnapshot (err : String)
  | cannotDeleteSnapshot (err : String)
  | srcFS (err : SrcError)
  | originFS (origin err : String)
  | dstFS (dst err : String)
  | cannotCreateBackup (err : String)
  deriving DecidableEq, Repr

/-- The calls a cycle makes, in order. -/
inductive Call where
  | snapshotCreate (url : String)
  | snapshotDelete (url name : String)
  | openSnapshot (snapshotPath : String)
  | newRemoteFS (location : String)
  | goClean (endpoint : String)
  | backupRun (concurrency : Int) (src : String) (dst : RemoteFS) (origin : OriginFS)
  | mustStop
  deriving DecidableEq, Repr

/-- How a cycle ends. `logger.Fatalf` logs and ends the process with `os.Exit`, which
does not run deferred functions; a runtime panic unwinds the goroutine, running the
deferred functions, and then ends the process. -/
inductive CycleEnd where
  | returned
  | fatal (reason : Fatal)
  | panicked (msg : String)
  deriving DecidableEq, Repr

/-- Go `newSrcFS`, lines 220-248: the calls made and the snapshot directory of the
source view, or the error. -/
def newSrcFS (f : Flags) (w : CycleWorld) : List Call × Except SrcError String :=
  if f.snapshotName.length = 0 then ([], .error SrcError.snapshotNameMissing)
  else
    let snapshotPath := f.storageDataPath ++ "/snapshots/" ++ f.snapshotName
    match w.osOpen snapshotPath with
    | some err => ([Call.openSnapshot snapshotPath], .error (SrcError.cannotOpen snapshotPath err))
    | none =>
      match w.stat snapshotPath with
      | .error err =>
        ([Call.openSnapshot snapshotPath], .error (SrcError.cannotStat snapshotPath err))
      | .ok isDir =>
        if !isDir then
          ([Call.openSnapshot snapshotPath], .error (SrcError.notDirectory snapshotPath))
        else
          match w.fslocalInit snapshotPath with
          | some err => ([Call.openSnapshot snapshotPath], .error (SrcError.cannotInit err))
          | none => ([Call.openSnapshot snapshotPath], .ok snapshotPath)

/-- Go `newDstFS`, lines 250-257. -/
def newDstFS (w : CycleWorld) (dst : String) : List Call × Except Fatal RemoteFS :=
  match w.newRemoteFS dst with
  | .error err => ([Call.newRemoteFS dst], .error (Fatal.dstFS dst err))
  | .ok fs => ([Call.newRemoteFS dst], .ok fs)

/-- Go `newOriginFS`, lines 259-268. -/
def newOriginFS (f : Flags) (w : CycleWorld) : List Call × Except Fatal OriginFS :=
  if f.origin.length = 0 then ([], .ok OriginFS.fsnil)
  else
    match w.newRemoteFS f.origin with
    | .error err => ([Call.newRemoteFS f.origin], .error (Fatal.originFS f.origin err))
    | .ok fs => ([Call.newRemoteFS f.origin], .ok (OriginFS.remote fs))

/-- The destination of the cycle, lines 178-179: `*dst + "/" + dayhour`. -/
def destinationPath (dst : String) (now : Int) (zone : Int → Int) : String :=
  dst ++ "/" ++ String.mk (formatDayhour now (zone (now / 1000000000)))

/-- Lines 178-207 of `beginBackup`: what runs once the deferred snapshot deletion is
registered. The type assertion `dstFS.(*s3remote.FS)` of line 193 has the one-result
form, which panics when the dynamic type is another one (the panic text is shortened).
`go clean` is recorded as the launch of a sweep; the sweep runs on its own goroutine and
what it does there, a panic of its own included, is `clean` and not part of these
calls. -/
def cycleBody (f : Flags) (w : CycleWorld) : List Call × CycleEnd :=
  let bucket := destinationPath f.dst w.now w.zone
  match newSrcFS f w with
  | (c1, .error e) => (c1, CycleEnd.fatal (Fatal.srcFS e))
  | (c1, .ok srcFS) =>
    match newOriginFS f w with
    | (c2, .error e) => (c1 ++ c2, CycleEnd.fatal e)
    | (c2, .ok originFS) =>
      match newDstFS w bucket with
      | (c3, .error e) => (c1 ++ c2 ++ c3, CycleEnd.fatal e)
      | (c3, .ok dstFS) =>
        match dstFS with
        | RemoteFS.s3 customEndpoint _ _ =>
          let run := Call.backupRun f.concurrency srcFS dstFS originFS
          match w.backupRun with
          | some err =>
            (c1 ++ c2 ++ c3 ++ [Call.goClean customEndpoint, run],
              CycleEnd.fatal (Fatal.cannotCreateBackup err))
          | none =>
            (c1 ++ c2 ++ c3 ++ [Call.goClean customEndpoint, run, Call.mustStop, Call.mustStop,
              Call.mustStop], CycleEnd.returned)
        | _ =>
          (c1 ++ c2 ++ c3,
            CycleEnd.panicked "interface conversion: common.RemoteFS is not *s3remote.FS")

/-- Go `beginBackup`, lines 158-208. `flag.Set("snapshotName", name)` cannot fail and
sets the flag the rest of the cycle reads. The function deferred on line 171 runs when
the body returns or panics, and not when the body ends the process with `Fatalf`. -/
def beginBackup (f : Flags) (w : CycleWorld) : List Call × CycleEnd :=
  match w.snapshotCreate f.snapshotCreateURL with
  | .error err =>
    ([Call.snapshotCreate f.snapshotCreateURL], CycleEnd.fatal (Fatal.cannotCreateSnapshot err))
  | .ok name =>
    let f1 := { f with snapshotName := name }
    let body := cycleBody f1 w
    match body.2 with
    | CycleEnd.fatal reason =>
      (Call.snapshotCreate f.snapshotCreateURL :: body.1, CycleEnd.fatal reason)
    | ending =>
      let calls := Call.snapshotCreate f.snapshotCreateURL :: body.1
        ++ [Call.snapshotDelete f1.snapshotDeleteURL name]
      match w.snapshotDelete f1.snapshotDeleteURL name with
      | some err => (calls, CycleEnd.fatal (Fatal.cannotDeleteSnapshot err))
      | none => (calls, ending)

/-- The number of `snapshot.Delete` calls among the calls of a cycle. -/
def snapshotDeletes (calls : List Call) : Nat :=
  (calls.filter (fun c => match c with
    | Call.snapshotDelete _ _ => true
    | _ => false)).length

/-- Whether the transfer step, `actions.Backup.Run`, is among the calls of a cycle. -/
def ranBackup (calls : List Call) : Bool :=
  calls.any (fun c => match c with
    | Call.backupRun _ _ _ _ => true
    | _ => false)

/-! ## Worlds used to run a cycle on concrete inputs -/

/-- Flags of a cycle with automatic snapshots and an S3 destination. -/
def flagsS3 : Flags :=
  { storageDataPath := "/storage", snapshotName := ""
    snapshotCreateURL := "http://vmstorage:8482/snapshot/create"
    snapshotDeleteURL := "http://vmstorage:8482/snapshot/delete"
    dst := "s3://backups/vm", origin := "", concurrency := 10 }

/-- A world in which every step of a cycle succeeds: the snapshot `20240102-17C4` is
created and present on disk, the destination is an S3 location, the transfer runs. The
clock reads 2024-01-02 03:04:05 UTC. -/
def worldAllGood : CycleWorld :=
  { snapshotCreate := fun _ => .ok "20240102-17C4"
    snapshotDelete := fun _ _ => none
    now := 1704164645 * 1000000000
    zone := fun _ => 0
    osOpen := fun _ => none
    stat := fun _ => .ok true
    fslocalInit := fun _ => none
    newRemoteFS := fun _ => .ok (RemoteFS.s3 "http://minio:9000" "backups" "/vm/2024-01-02-03-04")
    backupRun := none }

/-- As `worldAllGood`, but no create URL is configured: `snapshot.Create` is called
with the empty URL and its HTTP request fails. -/
def worldNoCreateURL : CycleWorld :=
  { worldAllGood with
    snapshotCreate := fun url =>
      if url = "" then .error "unsupported protocol scheme" else .ok "20240102-17C4" }

/-- As `worldAllGood`, but the transfer fails. -/
def worldTransferFails : CycleWorld :=
  { worldAllGood with backupRun := some "cannot upload part: connection reset" }

/-- As `worldAllGood`, but the snapshot directory is not on disk. -/
def worldSourceMissing : CycleWorld :=
  { worldAllGood with osOpen := fun _ => some "no such file or directory" }

/-- Flags of a cycle whose destination is a directory of the local file system. -/
def flagsLocalDst : Flags := { flagsS3 with dst := "fs:///backups" }

/-- As `worldAllGood`, but the destination is the local directory
`/backups/2024-01-02-03-04`, for which `actions.NewRemoteFS` builds an `*fsremote.FS`. -/
def worldLocalDst : CycleWorld :=
  { worldAllGood with newRemoteFS := fun _ => .ok (RemoteFS.fsremote "/backups/2024-01-02-03-04") }

/-- The time zone of New York around the end of daylight saving time on 3 November
2024: four hours west of UTC before 06:00 UTC, five hours from then on. -/
def zoneNewYork (unixSeconds : Int) : Int :=
  if unixSeconds < 1730613600 then -14400 else -18000


/-! ## Reading a formatted time back (used to compare destination paths) -/

/-- The number a string of decimal digits stands for; a character that is no digit
counts as zero. -/
def decimalValue (l : List Char) : Nat := l.foldl (fun a c => 10 * a + digitVal c) 0

/-- The zero-based day of the year of a date; the inverse of `monthDay`. -/
def dayOfYear (leap : Bool) (month day : Nat) : Nat :=
  daysBefore.getD (month - 1) 0 + (day - 1) + (if leap && decide (month > 2) then 1 else 0)


end VmstorageSidecar

/-! # Theorems -/

namespace VmstorageSidecar

/-! ## The retention sweep -/

theorem deleteAttempts_append (xs ys : List S3Call) :
    deleteAttempts (xs ++ ys) = deleteAttempts xs ++ deleteAttempts ys := by
  induction xs with
  | nil => rfl
  | cons x xs ih => cases x <;> simp [deleteAttempts, ih]

/-- The delete requests of the inner loop are the listed objects older than `now`, in
listing order, whatever `DeleteObject` answers. -/
theorem deleteAttempts_cleanObjects (w : S3World) (bucket : String) (now : Int)
    (cs : List S3Object) :
    deleteAttempts (cleanObjects w bucket now cs)
      = ((cs.filter (fun o => decide (o.lastModified < now))).map (fun o => (bucket, o.key))) := by
  induction cs with
  | nil => rfl
  | cons o cs ih =>
    by_cases h : o.lastModified < now
    · cases hd : w.deleteObject bucket o.key <;>
        simp [cleanObjects, timeBefore, h, hd, deleteAttempts, ih]
    · simp [cleanObjects, timeBefore, h, ih]

/-- The inner loop sends the same requests for every answer pattern of `DeleteObject`. -/
theorem cleanObjects_deleteObject_irrelevant (w : S3World) (f : String → String → Option String)
    (bucket : String) (now : Int) (cs : List S3Object) :
    cleanObjects { w with deleteObject := f } bucket now cs = cleanObjects w bucket now cs := by
  induction cs with
  | nil => rfl
  | cons o cs ih =>
    simp only [cleanObjects, ih]
    split
    · cases f bucket o.key <;> cases w.deleteObject bucket o.key <;> rfl
    · rfl

theorem cleanBuckets_deleteObject_irrelevant (w : S3World) (f : String → String → Option String)
    (reteion : Int) (bs : List BucketVisit) :
    cleanBuckets { w with deleteObject := f } reteion bs = cleanBuckets w reteion bs := by
  induction bs with
  | nil => rfl
  | cons bt bs ih =>
    simp only [cleanBuckets, ih, cleanObjects_deleteObject_irrelevant]

/-- Truncated division by a minute, in terms of the floor division `omega` knows. -/
theorem durationMinutes_eq (d : Int) :
    durationMinutes d = if 0 ≤ d then d / 60000000000 else -((-d) / 60000000000) := by
  unfold durationMinutes minute second
  split
  · rename_i h
    exact Int.tdiv_eq_ediv h (by norm_num)
  · rename_i h
    have h1 : d = -(-d) := by omega
    rw [h1, Int.neg_tdiv, Int.tdiv_eq_ediv (by omega) (by norm_num)]
    simp

/-- No overflow in the product of line 103 when `reteion` comes from an `int64`
duration. -/
theorem wrapInt64_minutes (d : Int) (hd : isInt64 d) :
    wrapInt64 (-minute * durationMinutes d) = -(minute * durationMinutes d) := by
  unfold isInt64 at hd
  rw [durationMinutes_eq]
  unfold wrapInt64 minute second
  split <;> omega

/-- The cutoff of a sweep: the clock reading minus the whole minutes of the retention
duration. -/
theorem cutoff_eq (d clock : Int) (hd : isInt64 d) :
    cutoff (durationMinutes d) clock = clock - minute * durationMinutes d := by
  unfold cutoff timeAdd
  rw [wrapInt64_minutes d hd]
  omega

theorem cleanBuckets_ok (w : S3World) (reteion : Int) (cs : BucketVisit → List S3Object)
    (bs : List BucketVisit) (h : ∀ bt ∈ bs, bt.listObjects = .ok (cs bt)) :
    (cleanBuckets w reteion bs).2 = none ∧
    deleteAttempts (cleanBuckets w reteion bs).1
      = bs.flatMap (fun bt =>
          ((cs bt).filter (fun o => decide (o.lastModified < cutoff reteion bt.clock))).map
            (fun o => (bt.name, o.key))) := by
  induction bs with
  | nil => exact ⟨rfl, rfl⟩
  | cons bt bs ih =>
    have hbt := h bt (List.mem_cons_self _ _)
    have ih' := ih (fun b hb => h b (List.mem_cons_of_mem _ hb))
    simp only [cleanBuckets, hbt, List.flatMap_cons]
    refine ⟨ih'.1, ?_⟩
    simp only [deleteAttempts, deleteAttempts_append, deleteAttempts_cleanObjects, ih'.2]

/-- C1 (as amended). For every retention duration `d` (an `int64`; a whole number of
minutes or below `2 ^ 18` minutes, where `int64(d.Minutes())` is the truncated quotient),
every sweep whose listings succeed sends a delete request for exactly the listed objects
whose last-modified time is strictly before `clock - (d - d mod 1 minute)`, in listing
order: the window is `d` with its sub-minute remainder dropped, which is `d` itself for
whole minutes. An object at the cutoff instant is kept. -/
theorem clean_deletes_exactly_older_than_whole_minutes (d : Int) (hd : isInt64 d)
    (_hm : d % minute = 0 ∨ (-(2 ^ 18 * minute) < d ∧ d < 2 ^ 18 * minute))
    (sess : Bool) (w : S3World) (hs : sess = true ∨ w.newSession = none)
    (cs : BucketVisit → List S3Object)
    (hl : ∀ bt ∈ w.listBucketsOut, bt.listObjects = .ok (cs bt)) :
    deleteAttempts (clean (durationMinutes d) sess w).1
      = w.listBucketsOut.flatMap (fun bt =>
          ((cs bt).filter
            (fun o => decide (o.lastModified < bt.clock - (d - Int.tmod d minute)))).map
            (fun o => (bt.name, o.key))) := by
  have hsess : (if sess then none else w.newSession) = none := by
    rcases hs with h | h
    · simp [h]
    · simp [h]
  have hb := cleanBuckets_ok w (durationMinutes d) cs w.listBucketsOut hl
  have hw : d - Int.tmod d minute = minute * durationMinutes d := by
    have := Int.tdiv_add_tmod d minute
    unfold durationMinutes
    omega
  simp only [clean, hsess, hb.1, deleteAttempts, hb.2, cutoff_eq _ _ hd, hw]

/-- C1, the scenario: retention 24h, listing at day 2 12:00; `A` (day 1 11:00) is
deleted and `B` (day 1 13:00) is kept. -/
theorem clean_deletes_exactly_older_than_whole_minutes_witness :
    isInt64 (24 * hour) ∧
    deleteAttempts (clean (durationMinutes (24 * hour)) false scenarioWorld).1
      = [("backups", "A")] :=
  ⟨by decide,
   (clean_deletes_exactly_older_than_whole_minutes (24 * hour) (by decide)
      (Or.inl (by decide)) false scenarioWorld (Or.inr rfl)
      (fun _ => [⟨"A", 11 * hour⟩, ⟨"B", 13 * hour⟩])
      (by intro bt hbt; simp [scenarioWorld] at hbt; subst hbt; rfl)).trans (by decide)⟩

/-- C1 fails as stated: with `RETION=90s` the stored window is one minute, and an object
75 seconds old is deleted although it is not older than the configured 90 seconds. -/
theorem clean_sub_minute_counterexample :
    init envRetention90s = .ok ⟨1, 60⟩ ∧
    parseDuration "90s" = .ok (90 * second) ∧
    ¬ (("backups", "A") ∈ deleteAttempts (clean 1 false subMinuteWorld).1
        ↔ 25 * second < 100 * second - 90 * second) := by
  refine ⟨rfl, rfl, ?_⟩
  decide

/-- C3. A failed `DeleteObject` never stops the sweep. Whatever `DeleteObject` answers,
object by object, the sweep sends the same requests in the same order and ends the same
way as when every delete succeeds; and when the listings succeed it sends a delete
request for every listed object older than the cutoff, bucket after bucket in listing
order, those after a failed delete included, and returns. -/
theorem clean_delete_failures_do_not_stop_sweep (reteion : Int) (sess : Bool) (w : S3World)
    (f : String → String → Option String) :
    clean reteion sess { w with deleteObject := f }
      = clean reteion sess { w with deleteObject := fun _ _ => none } ∧
    ∀ cs : BucketVisit → List S3Object,
      (sess = true ∨ w.newSession = none) →
      (∀ bt ∈ w.listBucketsOut, bt.listObjects = .ok (cs bt)) →
      deleteAttempts (clean reteion sess { w with deleteObject := f }).1
          = w.listBucketsOut.flatMap (fun bt =>
              ((cs bt).filter
                (fun o => decide (o.lastModified < cutoff reteion bt.clock))).map
                (fun o => (bt.name, o.key))) ∧
        (clean reteion sess { w with deleteObject := f }).2
          = SweepEnd.returned w.listBucketsOut.length := by
  have h1 := cleanBuckets_deleteObject_irrelevant w f reteion w.listBucketsOut
  have h2 := cleanBuckets_deleteObject_irrelevant w (fun _ _ => none) reteion w.listBucketsOut
  refine ⟨by simp only [clean, h1, h2], ?_⟩
  intro cs hs hl
  have hsess : (if sess then none else w.newSession) = none := by
    rcases hs with h | h
    · simp [h]
    · simp [h]
  have hb := cleanBuckets_ok w reteion cs w.listBucketsOut hl
  constructor
  · simp only [clean, hsess, h1, hb.1, deleteAttempts, hb.2]
  · simp only [clean, hsess, h1, hb.1]

/-- C3, on a concrete sweep with a retention of 24 hours: the delete of `A` fails, and
`B` in the same bucket and `D` in the next bucket still get their delete request; `C`,
which is not old enough, gets none. -/
theorem clean_delete_failures_do_not_stop_sweep_witness :
    worldDeleteFails.deleteObject "b1" "A" = some "AccessDenied" ∧
    deleteAttempts (clean 1440 false worldDeleteFails).1
      = [("b1", "A"), ("b1", "B"), ("b2", "D")] ∧
    (clean 1440 false worldDeleteFails).2 = SweepEnd.returned 2 :=
  ⟨by decide,
   ((clean_delete_failures_do_not_stop_sweep 1440 false worldDeleteFails
      worldDeleteFails.deleteObject).2
      (fun bt => if bt.name = "b1" then [⟨"A", 1 * hour⟩, ⟨"B", 2 * hour⟩, ⟨"C", 40 * hour⟩]
        else [⟨"D", 3 * hour⟩])
      (Or.inr rfl)
      (by
        intro bt hbt
        simp only [worldDeleteFails, List.mem_cons, List.mem_singleton, List.not_mem_nil,
          or_false] at hbt
        rcases hbt with h | h <;> subst h <;> rfl)).1.trans (by decide),
   ((clean_delete_failures_do_not_stop_sweep 1440 false worldDeleteFails
      worldDeleteFails.deleteObject).2
      (fun bt => if bt.name = "b1" then [⟨"A", 1 * hour⟩, ⟨"B", 2 * hour⟩, ⟨"C", 40 * hour⟩]
        else [⟨"D", 3 * hour⟩])
      (Or.inr rfl)
      (by
        intro bt hbt
        simp only [worldDeleteFails, List.mem_cons, List.mem_singleton, List.not_mem_nil,
          or_false] at hbt
        rcases hbt with h | h <;> subst h <;> rfl)).2⟩

/-- C7. When `ListBuckets` fails the sweep neither panics nor reports the error: it
sends no further request, logs `bucket.size: 0` and returns, exactly as for a successful
listing of zero buckets. -/
theorem clean_swallows_listBuckets_error (reteion : Int) :
    clean reteion false listBucketsFails = ([S3Call.listBuckets], SweepEnd.returned 0) ∧
    clean reteion false listBucketsFails
      = clean reteion false { listBucketsFails with listBucketsErr := none } :=
  ⟨rfl, rfl⟩


/-! ## Start-up -/

theorem string_length_pos_iff (s : String) : s.length > 0 ↔ s ≠ "" := by
  cases s with
  | mk l =>
    cases l with
    | nil => simp [String.length]
    | cons c t =>
      simp only [String.length, List.length_cons, gt_iff_lt, Nat.zero_lt_succ, true_iff]
      intro h
      have := congrArg String.data h
      simp at this

/-- An occurrence of `/create` cannot start before the end of `p` in `p ++ "/create"`
unless it lies inside `p`: the pattern has its only `/` in front. -/
theorem create_not_prefix (c : Char) (t : List Char)
    (h : ¬ ("/create".data <:+: c :: t)) :
    "/create".data.isPrefixOf (c :: (t ++ "/create".data)) = false := by
  rcases t with _ | ⟨x1, _ | ⟨x2, _ | ⟨x3, _ | ⟨x4, _ | ⟨x5, _ | ⟨x6, t⟩⟩⟩⟩⟩⟩
  · simp [List.isPrefixOf]
  · simp [List.isPrefixOf]
  · simp [List.isPrefixOf]
  · simp [List.isPrefixOf]
  · simp [List.isPrefixOf]
  · simp [List.isPrefixOf]
  · by_contra hp
    apply h
    simp [List.isPrefixOf] at hp
    obtain ⟨h0, h1, h2, h3, h4, h5, h6⟩ := hp
    subst h0 h1 h2 h3 h4 h5 h6
    exact ⟨[], t, rfl⟩

theorem replaceFirst_create (new p : List Char) (h : ¬ ("/create".data <:+: p)) :
    replaceFirst "/create".data new (p ++ "/create".data) = p ++ new := by
  induction p with
  | nil => simp [replaceFirst, List.isPrefixOf]
  | cons c t ih =>
    have hp := create_not_prefix c t h
    have ht : ¬ ("/create".data <:+: t) := fun hi => h (hi.trans (List.suffix_cons c t).isInfix)
    rw [List.cons_append, replaceFirst, hp, ih ht]
    simp


/-- C4 (as amended). When the create URL ends in `/create` and has no earlier occurrence
of `/create`, and no delete URL and no snapshot name are given, the derived delete URL
is the create URL with that final segment replaced by `delete`, the characters before it
unchanged. -/
theorem main_derives_delete_url (f : Flags) (p : String)
    (hurl : f.snapshotCreateURL = p ++ "/create") (hname : f.snapshotName = "")
    (hdel : f.snapshotDeleteURL = "") (hp : ¬ ("/create".data <:+: p.data)) :
    main f = Startup.launched { f with snapshotDeleteURL := p ++ "/delete" } := by
  have h1 : f.snapshotCreateURL.length > 0 := by
    have hl : (p ++ "/create").length = p.length + 7 := by
      rw [String.length_append]; rfl
    rw [hurl, hl]
    omega
  have h2 : stringsReplaceOnce (p ++ "/create") "/create" "/delete" = p ++ "/delete" := by
    unfold stringsReplaceOnce
    rw [if_neg (by decide), String.data_append, replaceFirst_create _ _ hp]
    rfl
  simp only [main, h1, hname, hdel, if_true]
  simp [hurl, h2]

/-- C4, the example: `http://h/snapshot/create` derives `http://h/snapshot/delete`. -/
theorem main_derives_delete_url_witness :
    main (flagsAuto "http://h/snapshot/create")
      = Startup.launched { flagsAuto "http://h/snapshot/create" with
          snapshotDeleteURL := "http://h/snapshot/delete" } :=
  main_derives_delete_url (flagsAuto "http://h/snapshot/create") "http://h/snapshot"
    rfl rfl rfl (by decide)

/-- C4 fails as stated: in `http://h/create/snapshot/create` the first `/create` is the
one replaced; the final path segment stays `create`. -/
theorem main_derives_delete_url_counterexample :
    main (flagsAuto "http://h/create/snapshot/create")
      = Startup.launched { flagsAuto "http://h/create/snapshot/create" with
          snapshotDeleteURL := "http://h/delete/snapshot/create" } ∧
    "http://h/delete/snapshot/create" ≠ "http://h/create/snapshot/delete" := by
  constructor
  · rfl
  · decide

/-- What the guard of lines 132-135 decides: start-up reaches the launch of the first
cycle exactly when the snapshot name and the snapshot-create URL are not both set. -/
theorem main_launches_iff_not_both (f : Flags) :
    (main f).isLaunched = true ↔ ¬ (f.snapshotName ≠ "" ∧ f.snapshotCreateURL ≠ "") := by
  rw [← string_length_pos_iff, ← string_length_pos_iff]
  unfold main
  by_cases h1 : f.snapshotCreateURL.length > 0
  · by_cases h2 : f.snapshotName.length > 0
    · simp [h1, h2, Startup.isLaunched]
    · by_cases h3 : f.snapshotDeleteURL.length ≤ 0
      · simp [h1, h2, h3, Startup.isLaunched]
      · simp [h1, h2, h3, Startup.isLaunched]
  · simp [h1, Startup.isLaunched]

/-! ## `init` -/

/-- C9. With `RETION` unset `init` panics: the default `30d` is not a duration
`time.ParseDuration` accepts, there being no unit `d`; no retention window is set. With
`RETION=720h` (30 days) and `TICK_MIN` unset, `reteion` is 43200 minutes and the
interval is 60 minutes. -/
theorem init_default_retention_panics :
    parseDuration "30d" = .error "time: unknown unit d in duration" ∧
    init envEmpty = .error "time: unknown unit d in duration" ∧
    init envRetention720h = .ok ⟨43200, 60⟩ :=
  ⟨rfl, rfl, rfl⟩

/-! ## The backup cycle -/

/-- C2. When the transfer fails the cycle ends in `logger.Fatalf`, which ends the
process without running the deferred function: the snapshot that was created is never
deleted. (When every step succeeds it is deleted once.) -/
theorem beginBackup_transfer_failure_skips_delete :
    snapshotDeletes (beginBackup flagsS3 worldTransferFails).1 = 0 ∧
    (beginBackup flagsS3 worldTransferFails).2
      = CycleEnd.fatal (Fatal.cannotCreateBackup "cannot upload part: connection reset") ∧
    Call.snapshotCreate "http://vmstorage:8482/snapshot/create"
      ∈ (beginBackup flagsS3 worldTransferFails).1 ∧
    snapshotDeletes (beginBackup flagsS3 worldAllGood).1 = 1 := by
  refine ⟨by decide, by decide, by decide, by decide⟩

/-- C8 (as amended). When the snapshot was created and its directory does not exist, or
is not a directory, the cycle is ended by the error of `newSrcFS`; `snapshot.Create` is
the first call of the cycle and the transfer is never run. -/
theorem beginBackup_source_missing (f : Flags) (w : CycleWorld) (name : String)
    (hcreate : w.snapshotCreate f.snapshotCreateURL = .ok name) (hname : name ≠ "")
    (hsrc : (∃ err, w.osOpen (f.storageDataPath ++ "/snapshots/" ++ name) = some err) ∨
      (w.osOpen (f.storageDataPath ++ "/snapshots/" ++ name) = none ∧
        w.stat (f.storageDataPath ++ "/snapshots/" ++ name) = .ok false)) :
    (∃ e, (newSrcFS { f with snapshotName := name } w).2 = .error e ∧
      (beginBackup f w).2 = CycleEnd.fatal (Fatal.srcFS e)) ∧
    (beginBackup f w).1.head? = some (Call.snapshotCreate f.snapshotCreateURL) ∧
    ranBackup (beginBackup f w).1 = false := by
  have hlen : ¬ name.length = 0 := by
    have := (string_length_pos_iff name).mpr hname
    omega
  rcases hsrc with ⟨err, ho⟩ | ⟨ho, hst⟩
  · have hs : newSrcFS { f with snapshotName := name } w
        = ([Call.openSnapshot (f.storageDataPath ++ "/snapshots/" ++ name)],
            .error (SrcError.cannotOpen (f.storageDataPath ++ "/snapshots/" ++ name) err)) := by
      simp [newSrcFS, hlen, ho]
    refine ⟨⟨_, by rw [hs], ?_⟩, ?_, ?_⟩ <;>
      simp [beginBackup, hcreate, cycleBody, hs, ranBackup]
  · have hs : newSrcFS { f with snapshotName := name } w
        = ([Call.openSnapshot (f.storageDataPath ++ "/snapshots/" ++ name)],
            .error (SrcError.notDirectory (f.storageDataPath ++ "/snapshots/" ++ name))) := by
      simp [newSrcFS, hlen, ho, hst]
    refine ⟨⟨_, by rw [hs], ?_⟩, ?_, ?_⟩ <;>
      simp [beginBackup, hcreate, cycleBody, hs, ranBackup]

/-- C8, on a concrete cycle: the snapshot `20240102-17C4` is created, its directory is
missing, and the cycle ends with the error of `os.Open`. -/
theorem beginBackup_source_missing_witness :
    (∃ e, (newSrcFS { flagsS3 with snapshotName := "20240102-17C4" } worldSourceMissing).2
        = .error e ∧
      (beginBackup flagsS3 worldSourceMissing).2 = CycleEnd.fatal (Fatal.srcFS e)) ∧
    (beginBackup flagsS3 worldSourceMissing).1.head?
      = some (Call.snapshotCreate flagsS3.snapshotCreateURL) ∧
    ranBackup (beginBackup flagsS3 worldSourceMissing).1 = false :=
  beginBackup_source_missing flagsS3 worldSourceMissing "20240102-17C4" rfl (by decide)
    (Or.inl ⟨"no such file or directory", rfl⟩)

/-- C8 fails as stated: with the snapshot directory missing, `snapshot.Create` has
already been called when the cycle ends with the error of `newSrcFS`. -/
theorem beginBackup_source_missing_after_create :
    (beginBackup flagsS3 worldSourceMissing).2
      = CycleEnd.fatal (Fatal.srcFS
          (SrcError.cannotOpen "/storage/snapshots/20240102-17C4" "no such file or directory")) ∧
    ¬ (Call.snapshotCreate "http://vmstorage:8482/snapshot/create"
        ∉ (beginBackup flagsS3 worldSourceMissing).1) := by
  refine ⟨by decide, by decide⟩

/-- C5. With neither a snapshot name nor a snapshot-create URL, `main` does not reject
the configuration: the first cycle is launched with the flags as given. The check that
one of the two is provided sits in `newSrcFS`, inside the cycle, and is not reached:
the cycle calls `snapshot.Create` with the empty URL and ends the process there. With
both set, start-up is stopped before any cycle. -/
theorem main_launches_with_nothing_set :
    main flagsNothingSet = Startup.launched flagsNothingSet ∧
    ¬ Xor' (flagsNothingSet.snapshotName ≠ "") (flagsNothingSet.snapshotCreateURL ≠ "") ∧
    (newSrcFS flagsNothingSet worldNoCreateURL).2 = .error SrcError.snapshotNameMissing ∧
    beginBackup flagsNothingSet worldNoCreateURL
      = ([Call.snapshotCreate ""],
          CycleEnd.fatal (Fatal.cannotCreateSnapshot "unsupported protocol scheme")) ∧
    (main { flagsS3 with snapshotName := "20240102-17C4" }).isLaunched = false := by
  refine ⟨by decide, by decide, rfl, by decide, by decide⟩

/-- C10. With the destination `fs:///backups`, which `newDstFS` accepts, the type
assertion of line 193 panics: the cycle never reaches the transfer step. -/
theorem beginBackup_local_destination_panics :
    (newDstFS worldLocalDst (destinationPath flagsLocalDst.dst worldLocalDst.now worldLocalDst.zone)).2
      = .ok (RemoteFS.fsremote "/backups/2024-01-02-03-04") ∧
    (beginBackup flagsLocalDst worldLocalDst).2
      = CycleEnd.panicked "interface conversion: common.RemoteFS is not *s3remote.FS" ∧
    ranBackup (beginBackup flagsLocalDst worldLocalDst).1 = false := by
  refine ⟨rfl, by decide, by decide⟩

/-! ## The destination path -/

/-- The day count is the days of the whole years before `year` plus the day of the
year. -/
theorem yearDay_days (days : Int) :
    days = 365 * ((yearDay days).1 - 1) + ((yearDay days).1 - 1) / 4
        - ((yearDay days).1 - 1) / 100 + ((yearDay days).1 - 1) / 400 + (yearDay days).2 ∧
    0 ≤ (yearDay days).2 ∧ (yearDay days).2 ≤ 365 := by
  simp only [yearDay]
  generalize hn400 : days / 146097 = n400
  generalize hd1 : days - 146097 * n400 = d1
  generalize hn100a : d1 / 36524 = n100a
  generalize hn100 : n100a - n100a / 4 = n100
  generalize hd2 : d1 - 36524 * n100 = d2
  generalize hn4 : d2 / 1461 = n4
  generalize hd3 : d2 - 1461 * n4 = d3
  generalize hn1a : d3 / 365 = n1a
  generalize hn1 : n1a - n1a / 4 = n1
  have b1 : 0 ≤ d1 ∧ d1 < 146097 := by omega
  have b2 : 0 ≤ n100 ∧ n100 ≤ 3 := by omega
  have b3 : 0 ≤ d2 ∧ d2 ≤ 36524 := by omega
  have b4 : 0 ≤ n4 ∧ n4 ≤ 24 := by omega
  have b5 : 0 ≤ d3 ∧ d3 ≤ 1460 := by omega
  have b6 : 0 ≤ n1 ∧ n1 ≤ 3 := by omega
  have q4 : (400 * n400 + 100 * n100 + 4 * n4 + n1 + 1 - 1) / 4 = 100 * n400 + 25 * n100 + n4 := by
    omega
  have q100 : (400 * n400 + 100 * n100 + 4 * n4 + n1 + 1 - 1) / 100 = 4 * n400 + n100 := by
    omega
  have q400 : (400 * n400 + 100 * n100 + 4 * n4 + n1 + 1 - 1) / 400 = n400 := by
    omega
  rw [q4, q100, q400]
  omega

theorem digitVal_digitChar : ∀ d < 10, digitVal (digitChar d) = d ∧ digitChar d ≠ '-' := by
  decide

theorem appendInt_two : ∀ n : Nat, n < 100 →
    decimalValue (appendInt (Int.ofNat n) 2) = n ∧ (appendInt (Int.ofNat n) 2).length = 2 := by
  decide

set_option maxRecDepth 100000 in
theorem dayOfYear_monthDay : ∀ leap : Bool, ∀ yday < 366,
    dayOfYear leap (monthDay leap yday).1 (monthDay leap yday).2 = yday ∧
      (monthDay leap yday).1 < 100 ∧ (monthDay leap yday).2 < 100 := by
  decide


theorem digitsRev_lt (fuel n : Nat) : ∀ d ∈ digitsRev fuel n, d < 10 := by
  induction fuel generalizing n with
  | zero => simp [digitsRev]
  | succ fuel ih =>
    intro d hd
    unfold digitsRev at hd
    split at hd
    · simp at hd
    · rcases List.mem_cons.mp hd with h | h
      · omega
      · exact ih _ d h

/-- Reading the digits of `n` back, most significant first, gives `n`. -/
theorem digitsRev_value (fuel n : Nat) (h : n ≤ fuel) :
    (digitsRev fuel n).foldr (fun d acc => 10 * acc + digitVal (digitChar d)) 0 = n := by
  induction fuel generalizing n with
  | zero =>
    have : n = 0 := by omega
    simp [digitsRev, this]
  | succ fuel ih =>
    unfold digitsRev
    split
    · rename_i h0; simp [h0]
    · rename_i h0
      have hv := (digitVal_digitChar (n % 10) (by omega)).1
      simp only [List.foldr_cons, hv, ih (n / 10) (by omega)]
      omega

theorem decimalValue_replicate_append (k : Nat) (l : List Char) :
    decimalValue (List.replicate k '0' ++ l) = decimalValue l := by
  induction k with
  | zero => simp
  | succ k ih =>
    simp only [List.replicate_succ, List.cons_append]
    unfold decimalValue at *
    simp only [List.foldl_cons]
    exact ih

theorem decimalValue_digits (u : Nat) :
    decimalValue (if u = 0 then ['0'] else (digitsRev u u).reverse.map digitChar) = u := by
  split
  · rename_i h; subst h; rfl
  · unfold decimalValue
    rw [List.foldl_map, List.foldl_reverse]
    exact digitsRev_value u u (Nat.le_refl u)

/-- The digits `appendInt` writes give back the absolute value. -/
theorem decimalValue_appendInt (x : Int) (width : Nat) :
    decimalValue (appendInt x width) = x.natAbs := by
  unfold appendInt
  simp only
  split
  · have h : ∀ l : List Char, decimalValue (['-'] ++ l) = decimalValue l := by
      intro l; simp [decimalValue, digitVal]
    rw [h, decimalValue_replicate_append, decimalValue_digits]
  · rw [List.nil_append, decimalValue_replicate_append, decimalValue_digits]

/-- The string `appendInt` writes starts with `-` exactly for a negative number. -/
theorem head_appendInt (x : Int) (width : Nat) :
    (appendInt x width).head? = some '-' ↔ x < 0 := by
  unfold appendInt
  simp only
  constructor
  · intro h
    by_contra hx
    rw [if_neg hx, List.nil_append] at h
    have hmem : '-' ∈ List.replicate (width - (if x.natAbs = 0 then ['0'] else
        (digitsRev x.natAbs x.natAbs).reverse.map digitChar).length) '0'
        ++ (if x.natAbs = 0 then ['0'] else (digitsRev x.natAbs x.natAbs).reverse.map digitChar) :=
      List.mem_of_mem_head? h
    rcases List.mem_append.mp hmem with h1 | h1
    · have := (List.mem_replicate.mp h1).2
      exact absurd this (by decide)
    · split at h1
      · simp at h1
      · obtain ⟨d, hd, hc⟩ := List.mem_map.mp h1
        have hd10 := digitsRev_lt _ _ d (List.mem_reverse.mp hd)
        exact (digitVal_digitChar d hd10).2 hc
  · intro hx
    rw [if_pos hx]
    rfl

theorem appendInt_four_inj (x y : Int) (h : appendInt x 4 = appendInt y 4) : x = y := by
  have h1 := decimalValue_appendInt x 4
  have h2 := decimalValue_appendInt y 4
  have h3 := head_appendInt x 4
  have h4 := head_appendInt y 4
  rw [h] at h1 h3
  have h5 : x < 0 ↔ y < 0 := h3.symm.trans h4
  omega

theorem appendInt_two_inj (x y : Int) (hx : 0 ≤ x ∧ x < 100) (hy : 0 ≤ y ∧ y < 100)
    (h : appendInt x 2 = appendInt y 2) : x = y := by
  have h1 := (appendInt_two x.toNat (by omega)).1
  have h2 := (appendInt_two y.toNat (by omega)).1
  have ex : Int.ofNat x.toNat = x := by simp; omega
  have ey : Int.ofNat y.toNat = y := by simp; omega
  rw [ex] at h1
  rw [ey] at h2
  rw [h] at h1
  omega

theorem appendInt_two_length (x : Int) (hx : 0 ≤ x ∧ x < 100) : (appendInt x 2).length = 2 := by
  have h1 := (appendInt_two x.toNat (by omega)).2
  have ex : Int.ofNat x.toNat = x := by simp; omega
  rw [ex] at h1
  exact h1


/-- Two formatted times are equal only when all five fields are. -/
theorem format_fields_inj (y1 y2 m1 m2 d1 d2 h1 h2 i1 i2 : Int)
    (bm1 : 0 ≤ m1 ∧ m1 < 100) (bm2 : 0 ≤ m2 ∧ m2 < 100)
    (bd1 : 0 ≤ d1 ∧ d1 < 100) (bd2 : 0 ≤ d2 ∧ d2 < 100)
    (bh1 : 0 ≤ h1 ∧ h1 < 100) (bh2 : 0 ≤ h2 ∧ h2 < 100)
    (bi1 : 0 ≤ i1 ∧ i1 < 100) (bi2 : 0 ≤ i2 ∧ i2 < 100)
    (h : appendInt y1 4 ++ '-' :: appendInt m1 2 ++ '-' :: appendInt d1 2
          ++ '-' :: appendInt h1 2 ++ '-' :: appendInt i1 2
        = appendInt y2 4 ++ '-' :: appendInt m2 2 ++ '-' :: appendInt d2 2
          ++ '-' :: appendInt h2 2 ++ '-' :: appendInt i2 2) :
    y1 = y2 ∧ m1 = m2 ∧ d1 = d2 ∧ h1 = h2 ∧ i1 = i2 := by
  have l (x : Int) (hx : 0 ≤ x ∧ x < 100) : ('-' :: appendInt x 2).length = 3 := by
    rw [List.length_cons, appendInt_two_length x hx]
  obtain ⟨h, hi⟩ := List.append_inj' h (by rw [l i1 bi1, l i2 bi2])
  obtain ⟨h, hh⟩ := List.append_inj' h (by rw [l h1 bh1, l h2 bh2])
  obtain ⟨h, hd⟩ := List.append_inj' h (by rw [l d1 bd1, l d2 bd2])
  obtain ⟨h, hm⟩ := List.append_inj' h (by rw [l m1 bm1, l m2 bm2])
  exact ⟨appendInt_four_inj _ _ h,
    appendInt_two_inj _ _ bm1 bm2 (List.cons.inj hm).2,
    appendInt_two_inj _ _ bd1 bd2 (List.cons.inj hd).2,
    appendInt_two_inj _ _ bh1 bh2 (List.cons.inj hh).2,
    appendInt_two_inj _ _ bi1 bi2 (List.cons.inj hi).2⟩

/-- Two instants format alike exactly when they fall in the same minute of the local
wall clock. -/
theorem formatDayhour_eq_iff (t1 o1 t2 o2 : Int) :
    formatDayhour t1 o1 = formatDayhour t2 o2 ↔ localMinute t1 o1 = localMinute t2 o2 := by
  unfold localMinute
  simp only [formatDayhour]
  generalize localSeconds t1 o1 = s1
  generalize localSeconds t2 o2 = s2
  constructor
  · intro h
    have y1 := yearDay_days (s1 / 86400 + 719162)
    have y2 := yearDay_days (s2 / 86400 + 719162)
    have k1 := dayOfYear_monthDay (isLeap (yearDay (s1 / 86400 + 719162)).1)
      (yearDay (s1 / 86400 + 719162)).2.toNat (by omega)
    have k2 := dayOfYear_monthDay (isLeap (yearDay (s2 / 86400 + 719162)).1)
      (yearDay (s2 / 86400 + 719162)).2.toNat (by omega)
    obtain ⟨hy, hm, hd, hh, hi⟩ := format_fields_inj _ _ _ _ _ _ _ _ _ _
      (by omega) (by omega) (by omega) (by omega) (by omega) (by omega) (by omega) (by omega) h
    rw [hy] at k1 y1
    have hm' := Int.ofNat.inj hm
    have hd' := Int.ofNat.inj hd
    rw [hy] at hm' hd'
    rw [hm', hd'] at k1
    have hyd : (yearDay (s1 / 86400 + 719162)).2 = (yearDay (s2 / 86400 + 719162)).2 := by
      have := k1.1.symm.trans k2.1
      omega
    rw [hyd] at y1
    have hdays : s1 / 86400 = s2 / 86400 := by omega
    omega
  · intro h
    have e1 : s1 / 86400 = s2 / 86400 := by omega
    have e2 : s1 % 86400 / 3600 = s2 % 86400 / 3600 := by omega
    have e3 : s1 % 86400 % 3600 / 60 = s2 % 86400 % 3600 / 60 := by omega
    rw [e1, e2, e3]


/-- C6 (as amended). The destination of a cycle starting at `t1` is the base `-dst`
value, a `/`, and `t1` formatted with the layout `2006-01-02-15-04` in the local zone.
For two start times at which the same UTC offset is in force, a whole number of minutes,
the two paths are equal exactly when the two times fall in the same minute. -/
theorem destinationPath_same_offset (dst : String) (zone : Int → Int) (t1 t2 : Int)
    (hz : zone (t1 / 1000000000) = zone (t2 / 1000000000))
    (hm : zone (t1 / 1000000000) % 60 = 0) :
    destinationPath dst t1 zone
      = dst ++ "/" ++ String.mk (formatDayhour t1 (zone (t1 / 1000000000))) ∧
    (destinationPath dst t1 zone = destinationPath dst t2 zone ↔ t1 / minute = t2 / minute) := by
  refine ⟨rfl, ?_⟩
  have hfmt := formatDayhour_eq_iff t1 (zone (t1 / 1000000000)) t2 (zone (t2 / 1000000000))
  have hpath : destinationPath dst t1 zone = destinationPath dst t2 zone ↔
      formatDayhour t1 (zone (t1 / 1000000000)) = formatDayhour t2 (zone (t2 / 1000000000)) := by
    unfold destinationPath
    constructor
    · intro h
      have h' := congrArg String.data h
      simp only [String.data_append] at h'
      exact List.append_cancel_left h'
    · intro h
      rw [h]
  rw [hpath, hfmt]
  unfold localMinute localSeconds minute second
  rw [← hz]
  generalize zone (t1 / 1000000000) = o at hm
  omega

/-- C6, on concrete cycles in UTC: starts at 03:04:05 and 03:04:15 of 2 January 2024 get
the same destination, `s3://backups/vm/2024-01-02-03-04`. -/
theorem destinationPath_same_offset_witness :
    destinationPath "s3://backups/vm" (1704164645 * second) (fun _ => 0)
      = "s3://backups/vm" ++ "/" ++ "2024-01-02-03-04" ∧
    (destinationPath "s3://backups/vm" (1704164645 * second) (fun _ => 0)
        = destinationPath "s3://backups/vm" (1704164655 * second) (fun _ => 0)
      ↔ 1704164645 * second / minute = 1704164655 * second / minute) :=
  destinationPath_same_offset "s3://backups/vm" (fun _ => 0) (1704164645 * second)
    (1704164655 * second) rfl rfl

/-- C6 fails as stated: in New York on 3 November 2024 the cycles starting at 05:30 UTC
and at 06:30 UTC, an hour apart, both read 01:30 on the local clock and get the same
destination. -/
theorem destinationPath_clock_set_back :
    destinationPath "s3://backups/vm" (1730611800 * second) zoneNewYork
      = destinationPath "s3://backups/vm" (1730615400 * second) zoneNewYork ∧
    1730611800 * second / minute ≠ 1730615400 * second / minute := by
  refine ⟨by decide, by decide⟩

end VmstorageSidecar
